import Mathlib

/-!
Verification of the element-shaping core of `convert_osm2sql.py`.

The embedding models the data flow of `shape_element` (and the tag
classification logic inlined in it) over a tree of XML elements.  Python
string attributes become `String`, the attribute dictionary becomes an
association list with first-match lookup, a raised `KeyError` becomes
`Except.error`, and the implicit `None` returned for elements that are
neither nodes nor ways becomes `ShapeResult.unsupported`.
-/

set_option autoImplicit false

namespace Osm2Sql

/-- An XML element: a tag name, an attribute mapping, and an ordered list of
child sub-elements.  Mirrors the `iterparse` element the Python code walks. -/
inductive XElem : Type where
  | mk (tag : String) (attrib : List (String × String)) (children : List XElem)

def XElem.tag : XElem → String
  | XElem.mk t _ _ => t

def XElem.attrib : XElem → List (String × String)
  | XElem.mk _ a _ => a

def XElem.children : XElem → List XElem
  | XElem.mk _ _ cs => cs

/-- First-match lookup in an attribute list; models Python `dict` access
returning the value when the key is present. -/
def lookupAttr (a : String) : List (String × String) → Option String
  | [] => none
  | (k, v) :: rest => if k = a then some v else lookupAttr a rest

mutual

/-- `iterName name e` models Python `e.iter(name)`: the elements of the
subtree rooted at `e` (including `e` itself) whose tag equals `name`, in
document (preorder) order. -/
def iterName (name : String) : XElem → List XElem
  | XElem.mk t a cs =>
    (if t = name then [XElem.mk t a cs] else []) ++ iterNameList name cs

def iterNameList (name : String) : List XElem → List XElem
  | [] => []
  | c :: cs => iterName name c ++ iterNameList name cs

end

/-- The characters of the regex `PROBLEMCHARS = [=\+/&<>;'"\?%#$@\,\. \t\r\n]`
from the source. -/
def PROBLEMCHARS : List Char :=
  ['=', '+', '/', '&', '<', '>', ';', '\'', '\"', '?', '%', '#', '$', '@',
   ',', '.', ' ', '\t', '\r', '\n']

/-- `problem_chars.search(s)` succeeds: some character of `s` belongs to the
problem-character class (membership anywhere in the string). -/
def hasProblemChar (s : String) : Bool :=
  s.toList.any (fun c => PROBLEMCHARS.contains c)

/-- The code-point ranges of Unicode general category Nd (decimal digits,
Unicode 14.0 as shipped with CPython 3.11).  In a Python 3 `str` pattern,
`\d` matches exactly these characters — all Unicode decimal digits, not just
ASCII `[0-9]` (the first range). -/
def ND_RANGES : List (Nat × Nat) :=
  [(0x30, 0x39), (0x660, 0x669), (0x6F0, 0x6F9), (0x7C0, 0x7C9),
   (0x966, 0x96F), (0x9E6, 0x9EF), (0xA66, 0xA6F), (0xAE6, 0xAEF),
   (0xB66, 0xB6F), (0xBE6, 0xBEF), (0xC66, 0xC6F), (0xCE6, 0xCEF),
   (0xD66, 0xD6F), (0xDE6, 0xDEF), (0xE50, 0xE59), (0xED0, 0xED9),
   (0xF20, 0xF29), (0x1040, 0x1049), (0x1090, 0x1099), (0x17E0, 0x17E9),
   (0x1810, 0x1819), (0x1946, 0x194F), (0x19D0, 0x19D9), (0x1A80, 0x1A89),
   (0x1A90, 0x1A99), (0x1B50, 0x1B59), (0x1BB0, 0x1BB9), (0x1C40, 0x1C49),
   (0x1C50, 0x1C59), (0xA620, 0xA629), (0xA8D0, 0xA8D9), (0xA900, 0xA909),
   (0xA9D0, 0xA9D9), (0xA9F0, 0xA9F9), (0xAA50, 0xAA59), (0xABF0, 0xABF9),
   (0xFF10, 0xFF19), (0x104A0, 0x104A9), (0x10D30, 0x10D39),
   (0x11066, 0x1106F), (0x110F0, 0x110F9), (0x11136, 0x1113F),
   (0x111D0, 0x111D9), (0x112F0, 0x112F9), (0x11450, 0x11459),
   (0x114D0, 0x114D9), (0x11650, 0x11659), (0x116C0, 0x116C9),
   (0x11730, 0x11739), (0x118E0, 0x118E9), (0x11950, 0x11959),
   (0x11C50, 0x11C59), (0x11D50, 0x11D59), (0x11DA0, 0x11DA9),
   (0x16A60, 0x16A69), (0x16AC0, 0x16AC9), (0x16B50, 0x16B59),
   (0x1D7CE, 0x1D7FF), (0x1E140, 0x1E149), (0x1E2F0, 0x1E2F9),
   (0x1E950, 0x1E959), (0x1FBF0, 0x1FBF9)]

/-- Python's `\d` for `str` patterns: the character is a Unicode decimal
digit (category Nd). -/
def isDecimalDigit (c : Char) : Bool :=
  ND_RANGES.any (fun r => decide (r.1 ≤ c.toNat) && decide (c.toNat ≤ r.2))

/-- The regex `LOWER = ^[\da-z]+$` used via `LOWER.match(seg)`: the whole
segment is one or more characters, each a Unicode decimal digit (`\d`) or a
lowercase ASCII letter.  (The trailing-newline subtlety of `$` cannot arise
because a newline is a problem character, so no segment reaching this check
contains one.) -/
def LOWER (s : String) : Bool :=
  !s.toList.isEmpty && s.toList.all (fun c => isDecimalDigit c || c.isLower)

/-- `re.split('[:]', s)`: split `s` at every colon, keeping empty segments. -/
def splitSegsChars : List Char → List (List Char)
  | [] => [[]]
  | c :: cs =>
    let rest := splitSegsChars cs
    if c = ':' then [] :: rest
    else
      match rest with
      | s :: ss => (c :: s) :: ss
      | [] => [[c]]

def splitSegs (s : String) : List String :=
  (splitSegsChars s.toList).map List.asString

/-- `re.split('[:]', s, maxsplit=1)` together with the defaults
`tag_key = s`, `tag_type = ""`: when a colon occurs, return the part before
the first colon and the part after it (further colons kept verbatim);
otherwise the type stays the empty-string default and the key is `s`. -/
def splitFirst (s : String) : String × String :=
  if s.toList.contains ':' then
    ((s.toList.takeWhile (fun c => c ≠ ':')).asString,
     ((s.toList.dropWhile (fun c => c ≠ ':')).drop 1).asString)
  else ("", s)

/-- A missing dictionary key, modelling a Python `KeyError`.  This is the
`MalformedElement` failure of the shaping step. -/
inductive ShapeErr : Type where
  | keyError (key : String)
deriving DecidableEq

structure TagRecord where
  id : String
  key : String
  value : String
  type : String
deriving DecidableEq

structure WayNodeRecord where
  id : String
  node_id : String
  position : Nat
deriving DecidableEq

/-- The value `shape_element` returns: a node bundle, a way bundle, or the
implicit Python `None` for any other element kind. -/
inductive ShapeResult : Type where
  | node (record : List (String × String)) (node_tags : List TagRecord)
  | way (record : List (String × String)) (way_nodes : List WayNodeRecord)
        (way_tags : List TagRecord)
  | unsupported
deriving DecidableEq

/-- `attrs[a]` with `KeyError` on absence. -/
def attrGet (a : String) (attrs : List (String × String)) : Except ShapeErr String :=
  match lookupAttr a attrs with
  | some v => Except.ok v
  | none => Except.error (ShapeErr.keyError a)

def NODE_FIELDS : List String :=
  ["id", "lat", "lon", "user", "uid", "version", "changeset", "timestamp"]

def WAY_FIELDS : List String :=
  ["id", "user", "uid", "version", "changeset", "timestamp"]

/-- One iteration of the `for tag in element.iter('tag')` loop: read `k`
(KeyError if absent); skip silently on a problem character; check every
colon-separated segment against `LOWER`; if the key is accepted, split at the
first colon and build the record, reading `element.attrib['id']` and then
`tag.attrib['v']` (each a KeyError if absent, in that order, matching the
evaluation order of the dict literal). -/
def processTag (e t : XElem) : Except ShapeErr (Option TagRecord) :=
  match attrGet "k" t.attrib with
  | Except.error err => Except.error err
  | Except.ok tag_k =>
    if hasProblemChar tag_k then Except.ok none
    else if (splitSegs tag_k).all LOWER then
      match attrGet "id" e.attrib with
      | Except.error err => Except.error err
      | Except.ok i =>
        match attrGet "v" t.attrib with
        | Except.error err => Except.error err
        | Except.ok v =>
          Except.ok (some { id := i, key := (splitFirst tag_k).2,
                            value := v, type := (splitFirst tag_k).1 })
    else Except.ok none

/-- The whole `tag` loop, accumulating surviving records in document order. -/
def collectTags (e : XElem) : List XElem → Except ShapeErr (List TagRecord)
  | [] => Except.ok []
  | t :: ts =>
    match processTag e t with
    | Except.error err => Except.error err
    | Except.ok none => collectTags e ts
    | Except.ok (some rec) =>
      match collectTags e ts with
      | Except.error err => Except.error err
      | Except.ok rest => Except.ok (rec :: rest)

/-- The `for tag in element.iter('nd')` loop: for each `nd` read
`element.attrib['id']` then `tag.attrib['ref']` (KeyError if absent, in that
order), emit the record with the running zero-based counter `nd_pos`. -/
def collectWayNodes (e : XElem) : List XElem → Nat → Except ShapeErr (List WayNodeRecord)
  | [], _ => Except.ok []
  | nd :: nds, pos =>
    match attrGet "id" e.attrib with
    | Except.error err => Except.error err
    | Except.ok i =>
      match attrGet "ref" nd.attrib with
      | Except.error err => Except.error err
      | Except.ok r =>
        match collectWayNodes e nds (pos + 1) with
        | Except.error err => Except.error err
        | Except.ok rest =>
          Except.ok ({ id := i, node_id := r, position := pos } :: rest)

/-- The `for ..._attr_key in ..._attr_fields` loop building the primary
record: each required attribute is looked up (KeyError if absent) in field
order. -/
def buildAttribs (e : XElem) : List String → Except ShapeErr (List (String × String))
  | [] => Except.ok []
  | f :: fs =>
    match attrGet f e.attrib with
    | Except.error err => Except.error err
    | Except.ok v =>
      match buildAttribs e fs with
      | Except.error err => Except.error err
      | Except.ok rest => Except.ok ((f, v) :: rest)

/-- `shape_element`: run the `tag` scan, then the `nd` scan (both over the
full subtree, before the kind of the element is examined), then branch on the
element's tag, building the primary record; any other kind falls through to
Python's implicit `None`, modelled as `unsupported`. -/
def shape_element (e : XElem) : Except ShapeErr ShapeResult :=
  match collectTags e (iterName "tag" e) with
  | Except.error err => Except.error err
  | Except.ok tags =>
    match collectWayNodes e (iterName "nd" e) 0 with
    | Except.error err => Except.error err
    | Except.ok way_nodes =>
      if e.tag = "node" then
        match buildAttribs e NODE_FIELDS with
        | Except.error err => Except.error err
        | Except.ok node_attribs => Except.ok (ShapeResult.node node_attribs tags)
      else if e.tag = "way" then
        match buildAttribs e WAY_FIELDS with
        | Except.error err => Except.error err
        | Except.ok way_attribs =>
          Except.ok (ShapeResult.way way_attribs way_nodes tags)
      else Except.ok ShapeResult.unsupported

/-- The Tag Classifier of the specification, factored out of the inline code
of `shape_element`: reject on a problem character, reject when a
colon-separated segment fails `LOWER`, otherwise split at the first colon. -/
def classify (raw_key : String) : Option (String × String) :=
  if hasProblemChar raw_key then none
  else if (splitSegs raw_key).all LOWER then some (splitFirst raw_key)
  else none

/-- The `ref` attributes of the `nd` descendants of `e`, in document order. -/
def ndRefs (e : XElem) : List (Option String) :=
  (iterName "nd" e).map (fun nd => lookupAttr "ref" nd.attrib)

/-! ### Concrete elements used as test inputs -/

def amenityNodeAttribs : List (String × String) :=
  [("id", "757860928"), ("lat", "41.9747374"), ("lon", "-87.6920102"),
   ("user", "uboot"), ("uid", "26299"), ("version", "2"),
   ("changeset", "5288876"), ("timestamp", "2010-07-22T16:16:51Z")]

/-- A node with one colon-free secondary tag, the `amenity=fast_food` example
of the source's own documentation. -/
def amenityNode : XElem :=
  XElem.mk "node" amenityNodeAttribs
    [XElem.mk "tag" [("k", "amenity"), ("v", "fast_food")] []]

/-- The tag record `shape_element` actually emits for `amenityNode`. -/
def amenityTagRecord : TagRecord :=
  { id := "757860928", key := "amenity", value := "fast_food", type := "" }

def problemTag : XElem := XElem.mk "tag" [("k", "addr.street"), ("v", "x")] []

def problemTagNode : XElem := XElem.mk "node" [("id", "1")] [problemTag]

def addrTag : XElem :=
  XElem.mk "tag" [("k", "addr:street:name"), ("v", "Lincoln")] []

def addrTagNode : XElem := XElem.mk "node" [("id", "12345")] [addrTag]

def addrTagRecord : TagRecord :=
  { id := "12345", key := "street:name", value := "Lincoln", type := "addr" }

def fullNodeAttribs : List (String × String) :=
  [("id", "1"), ("lat", "2"), ("lon", "3"), ("user", "u"), ("uid", "7"),
   ("version", "2"), ("changeset", "9"), ("timestamp", "t0")]

def noValueTag : XElem := XElem.mk "tag" [("k", "Name")] []

def noValueTagNode : XElem := XElem.mk "node" fullNodeAttribs [noValueTag]

def noKTag : XElem := XElem.mk "tag" [] []

def noKTagNode : XElem := XElem.mk "node" fullNodeAttribs [noKTag]

def noVAcceptedTag : XElem := XElem.mk "tag" [("k", "name")] []

def noVAcceptedNode : XElem := XElem.mk "node" fullNodeAttribs [noVAcceptedTag]

def badNd : XElem := XElem.mk "nd" [] []

def badNdNode : XElem := XElem.mk "node" fullNodeAttribs [badNd]

def relationBad : XElem := XElem.mk "relation" [] [XElem.mk "tag" [] []]

def relationPlain : XElem := XElem.mk "relation" [("id", "9")] []

def nodeNoUid : XElem :=
  XElem.mk "node"
    [("id", "1"), ("lat", "2"), ("lon", "3"), ("user", "u"),
     ("version", "1"), ("changeset", "5"), ("timestamp", "t")] []

def ringWayAttribs : List (String × String) :=
  [("id", "209809850"), ("user", "chicago-buildings"), ("uid", "674454"),
   ("version", "1"), ("changeset", "15353317"), ("timestamp", "2013-03-13T15:58:04Z")]

def ringTagRecord : TagRecord :=
  { id := "209809850", key := "building", value := "yes", type := "" }

def ringWayNode0 : WayNodeRecord :=
  { id := "209809850", node_id := "2199822281", position := 0 }

/-- A way whose `nd` refs form a closed ring: the first and last ref are the
same node. -/
def ringWay : XElem :=
  XElem.mk "way" ringWayAttribs
    [XElem.mk "nd" [("ref", "2199822281")] [],
     XElem.mk "nd" [("ref", "2199822390")] [],
     XElem.mk "nd" [("ref", "2199822281")] [],
     XElem.mk "tag" [("k", "building"), ("v", "yes")] []]

def ringWayNodes : List WayNodeRecord :=
  [ringWayNode0,
   { id := "209809850", node_id := "2199822390", position := 1 },
   { id := "209809850", node_id := "2199822281", position := 2 }]

def ringWayTags : List TagRecord := [ringTagRecord]

/-! ### Basic facts about attribute lookup and the classifier -/

theorem attrGet_ok_iff (a : String) (attrs : List (String × String)) (v : String) :
    attrGet a attrs = Except.ok v ↔ lookupAttr a attrs = some v := by
  unfold attrGet
  cases h : lookupAttr a attrs <;> simp

theorem attrGet_error_of_none (a : String) (attrs : List (String × String))
    (h : lookupAttr a attrs = none) :
    attrGet a attrs = Except.error (ShapeErr.keyError a) := by
  unfold attrGet
  rw [h]

theorem hasProblemChar_iff (s : String) :
    hasProblemChar s = true ↔ ∃ c ∈ s.toList, c ∈ PROBLEMCHARS := by
  unfold hasProblemChar
  simp [List.any_eq_true]

theorem lowerAlnum_char_iff (c : Char) :
    (isDecimalDigit c || c.isLower) = true ↔
      ('a' ≤ c ∧ c ≤ 'z') ∨ isDecimalDigit c = true := by
  simp only [Char.isLower, Char.le_def, Bool.or_eq_true, Bool.and_eq_true,
    decide_eq_true_eq, ge_iff_le]
  constructor
  · rintro (h | ⟨h1, h2⟩)
    · exact Or.inr h
    · exact Or.inl ⟨h1, h2⟩
  · rintro (⟨h1, h2⟩ | h)
    · exact Or.inr ⟨h1, h2⟩
    · exact Or.inl h

theorem LOWER_iff (s : String) :
    LOWER s = true ↔
      s.toList ≠ [] ∧
        ∀ c ∈ s.toList, ('a' ≤ c ∧ c ≤ 'z') ∨ isDecimalDigit c = true := by
  unfold LOWER
  simp only [Bool.and_eq_true, Bool.not_eq_true', List.isEmpty_eq_false_iff_exists_mem,
    List.all_eq_true]
  constructor
  · rintro ⟨⟨x, hx⟩, h2⟩
    refine ⟨List.ne_nil_of_mem hx, fun c hc => (lowerAlnum_char_iff c).mp (h2 c hc)⟩
  · rintro ⟨h1, h2⟩
    rcases List.exists_mem_of_ne_nil _ h1 with ⟨x, hx⟩
    exact ⟨⟨x, hx⟩, fun c hc => (lowerAlnum_char_iff c).mpr (h2 c hc)⟩

theorem classify_eq_none_iff (k : String) :
    classify k = none ↔
      hasProblemChar k = true ∨ (splitSegs k).all LOWER = false := by
  unfold classify
  by_cases h1 : hasProblemChar k = true
  · simp [h1]
  · by_cases h2 : (splitSegs k).all LOWER = true <;>
      simp_all

/-! ### Facts about the tag loop -/

theorem processTag_skip (e t : XElem) (k : String)
    (hk : lookupAttr "k" t.attrib = some k) (hc : classify k = none) :
    processTag e t = Except.ok none := by
  have hk' : attrGet "k" t.attrib = Except.ok k := (attrGet_ok_iff _ _ _).mpr hk
  rcases (classify_eq_none_iff k).mp hc with h | h
  · simp [processTag, hk', h]
  · by_cases hp : hasProblemChar k = true
    · simp [processTag, hk', hp]
    · simp [processTag, hk', hp, h]

theorem processTag_ok_some (e t : XElem) (rec : TagRecord)
    (h : processTag e t = Except.ok (some rec)) :
    ∃ k, lookupAttr "k" t.attrib = some k ∧
      hasProblemChar k = false ∧ (splitSegs k).all LOWER = true ∧
      lookupAttr "id" e.attrib = some rec.id ∧
      lookupAttr "v" t.attrib = some rec.value ∧
      rec.type = (splitFirst k).1 ∧ rec.key = (splitFirst k).2 := by
  unfold processTag at h
  split at h
  · exact absurd h (by simp)
  next k hk =>
    split at h
    next hp => exact absurd h (by simp)
    next hp =>
      split at h
      next hl =>
        split at h
        · exact absurd h (by simp)
        next i hi =>
          split at h
          · exact absurd h (by simp)
          next v hv =>
            cases h
            exact ⟨k, (attrGet_ok_iff "k" t.attrib k).mp hk,
              Bool.eq_false_iff.mpr hp, hl,
              (attrGet_ok_iff "id" e.attrib i).mp hi,
              (attrGet_ok_iff "v" t.attrib v).mp hv, rfl, rfl⟩
      next hl => exact absurd h (by simp)

theorem processTag_error_of_accepted_no_v (e t : XElem) (k : String)
    (hk : lookupAttr "k" t.attrib = some k) (hacc : classify k ≠ none)
    (hv : lookupAttr "v" t.attrib = none) :
    ∃ err, processTag e t = Except.error err := by
  have hp : hasProblemChar k = false := by
    rcases Bool.eq_false_or_eq_true (hasProblemChar k) with h | h
    · exact absurd ((classify_eq_none_iff k).mpr (Or.inl h)) hacc
    · exact h
  have hl : (splitSegs k).all LOWER = true := by
    rcases Bool.eq_false_or_eq_true ((splitSegs k).all LOWER) with h | h
    · exact h
    · exact absurd ((classify_eq_none_iff k).mpr (Or.inr h)) hacc
  have hk' : attrGet "k" t.attrib = Except.ok k := (attrGet_ok_iff _ _ _).mpr hk
  cases hi : attrGet "id" e.attrib with
  | error err => exact ⟨err, by simp [processTag, hk', hp, hl, hi]⟩
  | ok i =>
    exact ⟨ShapeErr.keyError "v",
      by simp [processTag, hk', hp, hl, hi, attrGet_error_of_none "v" t.attrib hv]⟩

theorem collectTags_skip (e t : XElem) (ts : List XElem)
    (h : processTag e t = Except.ok none) :
    collectTags e (t :: ts) = collectTags e ts := by
  simp [collectTags, h]

theorem collectTags_id_of_ok (e : XElem) (l : List XElem) (ts : List TagRecord)
    (h : collectTags e l = Except.ok ts) :
    ∀ r ∈ ts, lookupAttr "id" e.attrib = some r.id := by
  induction l generalizing ts with
  | nil =>
    unfold collectTags at h
    cases h
    intro r hr
    exact absurd hr (List.not_mem_nil r)
  | cons t l ih =>
    unfold collectTags at h
    split at h
    · exact absurd h (by simp)
    · exact ih ts h
    next rec hp =>
      split at h
      · exact absurd h (by simp)
      next rest hrest =>
        cases h
        intro r hr
        rcases List.mem_cons.mp hr with hr | hr
        · subst hr
          rcases processTag_ok_some e t r hp with ⟨k, _, _, _, hid, _⟩
          exact hid
        · exact ih rest hrest r hr

theorem collectTags_error_of_mem (e : XElem) (l : List XElem) (t : XElem)
    (hm : t ∈ l) (h : ∃ err, processTag e t = Except.error err) :
    ∃ err, collectTags e l = Except.error err := by
  induction l with
  | nil => exact absurd hm (List.not_mem_nil t)
  | cons t' l ih =>
    rcases List.mem_cons.mp hm with hq | hq
    · subst hq
      rcases h with ⟨err, herr⟩
      exact ⟨err, by simp [collectTags, herr]⟩
    · cases hp : processTag e t' with
      | error err => exact ⟨err, by simp [collectTags, hp]⟩
      | ok o =>
        rcases ih hq with ⟨err, herr⟩
        cases o with
        | none => exact ⟨err, by simp [collectTags, hp, herr]⟩
        | some rec => exact ⟨err, by simp [collectTags, hp, herr]⟩

/-! ### Facts about the way-node loop and the primary-record loop -/

theorem collectWayNodes_spec (e : XElem) (l : List XElem) (p : Nat)
    (w : List WayNodeRecord) (h : collectWayNodes e l p = Except.ok w) :
    w.map (fun x => x.position) = List.range' p l.length ∧
    w.map (fun x => some x.node_id) = l.map (fun nd => lookupAttr "ref" nd.attrib) ∧
    ∀ x ∈ w, lookupAttr "id" e.attrib = some x.id := by
  induction l generalizing p w with
  | nil =>
    unfold collectWayNodes at h
    cases h
    exact ⟨rfl, rfl, fun x hx => absurd hx (List.not_mem_nil x)⟩
  | cons nd nds ih =>
    unfold collectWayNodes at h
    split at h
    · exact absurd h (by simp)
    next i hi =>
      split at h
      · exact absurd h (by simp)
      next r hr =>
        split at h
        · exact absurd h (by simp)
        next rest hrest =>
          cases h
          rcases ih (p + 1) rest hrest with ⟨h1, h2, h3⟩
          refine ⟨?_, ?_, ?_⟩
          · simp only [List.map_cons, List.length_cons, List.range'_succ, h1]
          · simp only [List.map_cons, h2, List.cons.injEq]
            exact ⟨((attrGet_ok_iff "ref" nd.attrib r).mp hr).symm, trivial⟩
          · intro x hx
            rcases List.mem_cons.mp hx with hx | hx
            · subst hx
              exact (attrGet_ok_iff "id" e.attrib i).mp hi
            · exact h3 x hx

theorem collectWayNodes_error_of_mem (e : XElem) (l : List XElem) (nd : XElem)
    (hm : nd ∈ l) (hr : lookupAttr "ref" nd.attrib = none) (p : Nat) :
    ∃ err, collectWayNodes e l p = Except.error err := by
  induction l generalizing p with
  | nil => exact absurd hm (List.not_mem_nil nd)
  | cons nd' nds ih =>
    cases hi : attrGet "id" e.attrib with
    | error err => exact ⟨err, by simp [collectWayNodes, hi]⟩
    | ok i =>
      rcases List.mem_cons.mp hm with hq | hq
      · subst hq
        exact ⟨ShapeErr.keyError "ref",
          by simp [collectWayNodes, hi, attrGet_error_of_none "ref" nd.attrib hr]⟩
      · cases hr' : attrGet "ref" nd'.attrib with
        | error err => exact ⟨err, by simp [collectWayNodes, hi, hr']⟩
        | ok r =>
          rcases ih hq (p + 1) with ⟨err, herr⟩
          exact ⟨err, by simp [collectWayNodes, hi, hr', herr]⟩

theorem buildAttribs_error_of_missing (e : XElem) (fields : List String) (f : String)
    (hm : f ∈ fields) (h : lookupAttr f e.attrib = none) :
    ∃ err, buildAttribs e fields = Except.error err := by
  induction fields with
  | nil => exact absurd hm (List.not_mem_nil f)
  | cons f' fs ih =>
    rcases List.mem_cons.mp hm with hq | hq
    · subst hq
      exact ⟨ShapeErr.keyError f, by simp [buildAttribs, attrGet_error_of_none f e.attrib h]⟩
    · cases hv : attrGet f' e.attrib with
      | error err => exact ⟨err, by simp [buildAttribs, hv]⟩
      | ok v =>
        rcases ih hq with ⟨err, herr⟩
        exact ⟨err, by simp [buildAttribs, hv, herr]⟩

theorem buildAttribs_ok_of_ok (e : XElem) (fields : List String)
    (pr : List (String × String)) (h : buildAttribs e fields = Except.ok pr) :
    ∀ fv ∈ pr, lookupAttr fv.1 e.attrib = some fv.2 := by
  induction fields generalizing pr with
  | nil =>
    unfold buildAttribs at h
    cases h
    exact fun fv hfv => absurd hfv (List.not_mem_nil fv)
  | cons f fs ih =>
    unfold buildAttribs at h
    split at h
    · exact absurd h (by simp)
    next v hv =>
      split at h
      · exact absurd h (by simp)
      next rest hrest =>
        cases h
        intro fv hfv
        rcases List.mem_cons.mp hfv with hq | hq
        · subst hq
          exact (attrGet_ok_iff f e.attrib v).mp hv
        · exact ih rest hrest fv hq

/-! ### Facts about `shape_element` as a whole -/

theorem shape_element_error_of_tags_error (e : XElem)
    (h : ∃ err, collectTags e (iterName "tag" e) = Except.error err) :
    (shape_element e).isOk = false := by
  rcases h with ⟨err, herr⟩
  simp [shape_element, herr, Except.isOk, Except.toBool]

theorem shape_element_error_of_wayNodes_error (e : XElem)
    (h : ∃ err, collectWayNodes e (iterName "nd" e) 0 = Except.error err) :
    (shape_element e).isOk = false := by
  rcases h with ⟨err, herr⟩
  cases ht : collectTags e (iterName "tag" e) with
  | error err' => simp [shape_element, ht, Except.isOk, Except.toBool]
  | ok ts => simp [shape_element, ht, herr, Except.isOk, Except.toBool]

theorem shape_node_inv (e : XElem) (pr : List (String × String)) (ts : List TagRecord)
    (h : shape_element e = Except.ok (ShapeResult.node pr ts)) :
    e.tag = "node" ∧
    collectTags e (iterName "tag" e) = Except.ok ts ∧
    buildAttribs e NODE_FIELDS = Except.ok pr ∧
    ∃ w, collectWayNodes e (iterName "nd" e) 0 = Except.ok w := by
  unfold shape_element at h
  split at h
  · exact absurd h (by simp)
  next ts' hts =>
    split at h
    · exact absurd h (by simp)
    next w hw =>
      split at h
      next hn =>
        split at h
        · exact absurd h (by simp)
        next pr' hpr =>
          cases h
          exact ⟨hn, hts, hpr, w, hw⟩
      next hn =>
        split at h
        next hwy =>
          split at h
          · exact absurd h (by simp)
          next pr' hpr => exact absurd h (by simp)
        next hwy => exact absurd h (by simp)

theorem shape_way_inv (e : XElem) (pr : List (String × String))
    (w : List WayNodeRecord) (ts : List TagRecord)
    (h : shape_element e = Except.ok (ShapeResult.way pr w ts)) :
    e.tag = "way" ∧
    collectTags e (iterName "tag" e) = Except.ok ts ∧
    collectWayNodes e (iterName "nd" e) 0 = Except.ok w ∧
    buildAttribs e WAY_FIELDS = Except.ok pr := by
  unfold shape_element at h
  split at h
  · exact absurd h (by simp)
  next ts' hts =>
    split at h
    · exact absurd h (by simp)
    next w' hw =>
      split at h
      next hn =>
        split at h
        · exact absurd h (by simp)
        next pr' hpr => exact absurd h (by simp)
      next hn =>
        split at h
        next hwy =>
          split at h
          · exact absurd h (by simp)
          next pr' hpr =>
            cases h
            exact ⟨hwy, hts, hw, hpr⟩
        next hwy => exact absurd h (by simp)

theorem shape_ok_of_other_kind (e : XElem) (ts : List TagRecord)
    (w : List WayNodeRecord) (hn : ¬e.tag = "node") (hw : ¬e.tag = "way")
    (hts : collectTags e (iterName "tag" e) = Except.ok ts)
    (hwn : collectWayNodes e (iterName "nd" e) 0 = Except.ok w) :
    shape_element e = Except.ok ShapeResult.unsupported := by
  simp [shape_element, hts, hwn, hn, hw]

/-! ### The first-colon split -/

theorem charList_contains_iff (l : List Char) (c : Char) :
    l.contains c = true ↔ c ∈ l := by
  simp [List.contains, List.elem_iff]

theorem splitFirst_chars (l : List Char) (h : ':' ∈ l) :
    l.takeWhile (fun c => c ≠ ':') ++ ':' :: (l.dropWhile (fun c => c ≠ ':')).drop 1 = l ∧
    ':' ∉ l.takeWhile (fun c => c ≠ ':') := by
  induction l with
  | nil => exact absurd h (List.not_mem_nil ':')
  | cons c cs ih =>
    by_cases hc : c = ':'
    · subst hc
      simp
    · have hcs : ':' ∈ cs := by
        rcases List.mem_cons.mp h with h' | h'
        · exact absurd h'.symm hc
        · exact h'
      rcases ih hcs with ⟨ih1, ih2⟩
      constructor
      · rw [List.takeWhile_cons, List.dropWhile_cons, if_pos (decide_eq_true hc),
          if_pos (decide_eq_true hc), List.cons_append]
        exact congrArg (List.cons c) ih1
      · rw [List.takeWhile_cons, if_pos (decide_eq_true hc)]
        intro hmem
        rcases List.mem_cons.mp hmem with h' | h'
        · exact hc h'.symm
        · exact ih2 h'

theorem splitFirst_split (k : String) (h : k.toList.contains ':' = true) :
    (splitFirst k).1 ++ ":" ++ (splitFirst k).2 = k ∧
    (splitFirst k).1.toList.contains ':' = false := by
  rcases splitFirst_chars k.toList ((charList_contains_iff _ _).mp h) with ⟨h1, h2⟩
  unfold splitFirst
  rw [if_pos h]
  constructor
  · apply String.ext
    simpa [String.data_append, List.asString] using h1
  · refine Bool.eq_false_iff.mpr fun hx => h2 ?_
    simpa [List.asString] using (charList_contains_iff _ _).mp hx

/-! ### C1 -/

/-- Claim C1 (code bug): the claim says a colon-free accepted key yields a
`TagRecord` with type `"regular"`, matching the source's docstring and its
unused `default_tag_type='regular'` parameter; the code never assigns the
default, so the emitted type is the empty string.  At the concrete input the
key survives unchanged but the type is `""`, not `"regular"`. -/
theorem no_colon_tag_type_is_empty_not_regular :
    classify "amenity" = some ("", "amenity") ∧
    shape_element amenityNode =
      Except.ok (ShapeResult.node amenityNodeAttribs [amenityTagRecord]) ∧
    amenityTagRecord.key = "amenity" ∧
    amenityTagRecord.type = "" ∧ amenityTagRecord.type ≠ "regular" :=
  ⟨rfl, rfl, rfl, rfl, by decide⟩

/-! ### C5 -/

/-- Claim C5: a raw key containing a problem character anywhere is rejected by the
classifier, and the tag is skipped: no record is emitted and no error is
raised, the loop just moves on. -/
theorem problem_char_key_skipped (k : String) (e t : XElem) (ts : List XElem)
    (hc : ∃ c ∈ k.toList, c ∈ PROBLEMCHARS) :
    classify k = none ∧
    (lookupAttr "k" t.attrib = some k →
      processTag e t = Except.ok none ∧
      collectTags e (t :: ts) = collectTags e ts) := by
  have hp : hasProblemChar k = true := (hasProblemChar_iff k).mpr hc
  have hcl : classify k = none := (classify_eq_none_iff k).mpr (Or.inl hp)
  refine ⟨hcl, fun hk => ?_⟩
  have h1 := processTag_skip e t k hk hcl
  exact ⟨h1, collectTags_skip e t ts h1⟩

theorem problem_char_key_skipped_witness :
    classify "addr.street" = none ∧
    processTag problemTagNode problemTag = Except.ok none ∧
    collectTags problemTagNode [problemTag] = collectTags problemTagNode [] := by
  have H := problem_char_key_skipped "addr.street" problemTagNode problemTag []
    ⟨'.', by decide, by decide⟩
  exact ⟨H.1, (H.2 rfl).1, (H.2 rfl).2⟩

/-! ### C6 -/

/-- Claim C6 is false as stated: the per-segment check is Python's
`^[\da-z]+$`, and in a `str` pattern `\d` matches every Unicode decimal
digit, not only ASCII `[0-9]`.  The key `"٣"` (the single character U+0663,
ARABIC-INDIC DIGIT THREE) is free of problem characters and its one segment
contains no character from `[0-9a-z]`, yet the classifier accepts it. -/
theorem classifier_accepts_nonascii_digit :
    hasProblemChar "٣" = false ∧
    splitSegs "٣" = ["٣"] ∧
    (('a' ≤ '٣' ∧ '٣' ≤ 'z') ∨ ('0' ≤ '٣' ∧ '٣' ≤ '9') → False) ∧
    classify "٣" = some ("", "٣") :=
  ⟨rfl, rfl, by decide, rfl⟩

/-- Claim C6 (amended): on a key free of problem characters, the classifier
accepts exactly when every colon-separated segment is a nonempty run of
characters each a lowercase ASCII letter or a Unicode decimal digit
(Python's `\d`, category Nd — wider than ASCII `[0-9]`); underscores are
still not allowed and `"Name"`, with an uppercase letter, is rejected. -/
theorem classifier_accepts_iff_segments :
    (∀ k : String, (¬∃ c ∈ k.toList, c ∈ PROBLEMCHARS) →
      ((classify k).isSome = true ↔
        ∀ seg ∈ splitSegs k, seg.toList ≠ [] ∧
          ∀ c ∈ seg.toList, ('a' ≤ c ∧ c ≤ 'z') ∨ isDecimalDigit c = true)) ∧
    classify "Name" = none := by
  constructor
  · intro k hnp
    have hp : hasProblemChar k = false := by
      rcases Bool.eq_false_or_eq_true (hasProblemChar k) with h | h
      · exact absurd ((hasProblemChar_iff k).mp h) hnp
      · exact h
    unfold classify
    rw [if_neg (by simp [hp])]
    by_cases hl : (splitSegs k).all LOWER = true
    · rw [if_pos hl]
      constructor
      · intro _ seg hseg
        exact (LOWER_iff seg).mp (List.all_eq_true.mp hl seg hseg)
      · intro _
        rfl
    · rw [if_neg hl]
      constructor
      · intro h'
        exact absurd h' (by simp)
      · intro hall
        exact absurd
          (List.all_eq_true.mpr fun seg hseg => (LOWER_iff seg).mpr (hall seg hseg)) hl
  · rfl

theorem classifier_accepts_iff_segments_witness :
    (classify "addr:street").isSome = true ∧
    (classify "٣").isSome = true ∧
    (classify "Name").isSome = false := by
  refine ⟨?_, ?_, ?_⟩
  · exact (classifier_accepts_iff_segments.1 "addr:street" (by decide)).mpr (by decide)
  · exact (classifier_accepts_iff_segments.1 "٣" (by decide)).mpr (by decide)
  · rw [classifier_accepts_iff_segments.2]
    rfl

/-! ### C7 -/

/-- Claim C7: for an accepted key containing a colon, the emitted record's type is
the text before the first colon (so it contains no colon itself) and its key
is everything after the first colon, further colons kept intact:
type ++ ":" ++ key reassembles the raw key. -/
theorem tag_key_colon_split (e t : XElem) (k : String) (rec : TagRecord)
    (hk : lookupAttr "k" t.attrib = some k)
    (h : processTag e t = Except.ok (some rec))
    (hc : k.toList.contains ':' = true) :
    rec.type ++ ":" ++ rec.key = k ∧ rec.type.toList.contains ':' = false := by
  rcases processTag_ok_some e t rec h with ⟨k', hk', _, _, _, _, hty, hkey⟩
  have hkk : k' = k := Option.some_inj.mp (hk'.symm.trans hk)
  subst hkk
  rw [hty, hkey]
  exact splitFirst_split k' hc

theorem tag_key_colon_split_witness :
    processTag addrTagNode addrTag = Except.ok (some addrTagRecord) ∧
    addrTagRecord.type ++ ":" ++ addrTagRecord.key = "addr:street:name" ∧
    addrTagRecord.type.toList.contains ':' = false := by
  refine ⟨rfl, ?_⟩
  exact tag_key_colon_split addrTagNode addrTag "addr:street:name" addrTagRecord
    rfl rfl (by decide)

/-! ### C2 -/

/-- Claim C2 is false as stated: a `tag` sub-element lacking `"v"` whose key
(`"Name"`) is rejected by the classifier does not fail the element — the
code never reads `"v"` for rejected keys, so shaping succeeds with the tag
silently skipped. -/
theorem missing_v_on_rejected_tag_succeeds :
    lookupAttr "v" noValueTag.attrib = none ∧
    classify "Name" = none ∧
    shape_element noValueTagNode =
      Except.ok (ShapeResult.node fullNodeAttribs []) :=
  ⟨rfl, rfl, rfl⟩

/-- Claim C2 (amended): a `tag` descendant lacking `"k"` always fails the
whole element; an `nd` descendant lacking `"ref"` always fails the whole
element; a `tag` descendant lacking `"v"` fails the whole element when its
key is accepted by the classifier; but when the key is rejected, the tag is
skipped without `"v"` ever being read. -/
theorem missing_subelement_attribute_behavior :
    (∀ e t, t ∈ iterName "tag" e → lookupAttr "k" t.attrib = none →
      (shape_element e).isOk = false) ∧
    (∀ e nd, nd ∈ iterName "nd" e → lookupAttr "ref" nd.attrib = none →
      (shape_element e).isOk = false) ∧
    (∀ e t k, t ∈ iterName "tag" e → lookupAttr "k" t.attrib = some k →
      classify k ≠ none → lookupAttr "v" t.attrib = none →
      (shape_element e).isOk = false) ∧
    (∀ e t k, lookupAttr "k" t.attrib = some k → classify k = none →
      processTag e t = Except.ok none) := by
  refine ⟨?_, ?_, ?_, ?_⟩
  · intro e t hm hk
    apply shape_element_error_of_tags_error
    apply collectTags_error_of_mem e _ t hm
    exact ⟨ShapeErr.keyError "k",
      by simp [processTag, attrGet_error_of_none "k" t.attrib hk]⟩
  · intro e nd hm hr
    exact shape_element_error_of_wayNodes_error e
      (collectWayNodes_error_of_mem e _ nd hm hr 0)
  · intro e t k hm hk hacc hv
    exact shape_element_error_of_tags_error e
      (collectTags_error_of_mem e _ t hm (processTag_error_of_accepted_no_v e t k hk hacc hv))
  · intro e t k hk hc
    exact processTag_skip e t k hk hc

theorem missing_subelement_attribute_behavior_witness :
    (shape_element noKTagNode).isOk = false ∧
    (shape_element badNdNode).isOk = false ∧
    (shape_element noVAcceptedNode).isOk = false ∧
    processTag noValueTagNode noValueTag = Except.ok none := by
  refine ⟨?_, ?_, ?_, ?_⟩
  · exact missing_subelement_attribute_behavior.1 noKTagNode noKTag
      (List.mem_singleton.mpr rfl) rfl
  · exact missing_subelement_attribute_behavior.2.1 badNdNode badNd
      (List.mem_singleton.mpr rfl) rfl
  · exact missing_subelement_attribute_behavior.2.2.1 noVAcceptedNode noVAcceptedTag "name"
      (List.mem_singleton.mpr rfl) rfl (by decide) rfl
  · exact missing_subelement_attribute_behavior.2.2.2 noValueTagNode noValueTag "Name"
      rfl rfl

/-! ### C3 -/

/-- Claim C3 is false as stated: an element of kind `"relation"` with a
child `tag` sub-element lacking `"k"` makes `shape_element` raise a
`KeyError` instead of returning the Unsupported outcome — the sub-element
scans run before the kind is ever examined. -/
theorem other_kind_can_crash :
    relationBad.tag ≠ "node" ∧ relationBad.tag ≠ "way" ∧
    shape_element relationBad = Except.error (ShapeErr.keyError "k") :=
  ⟨by decide, by decide, rfl⟩

/-- Claim C3 (amended): for an element whose kind is neither `"node"` nor
`"way"`, a successful shaping always returns the Unsupported outcome, and
whenever the tag/nd descendant scans raise no error the result is exactly
Unsupported; the scans may however still fail on malformed descendants. -/
theorem other_kind_never_node_or_way (e : XElem)
    (hn : e.tag ≠ "node") (hw : e.tag ≠ "way") :
    (∀ r, shape_element e = Except.ok r → r = ShapeResult.unsupported) ∧
    (∀ ts w, collectTags e (iterName "tag" e) = Except.ok ts →
      collectWayNodes e (iterName "nd" e) 0 = Except.ok w →
      shape_element e = Except.ok ShapeResult.unsupported) := by
  constructor
  · intro r hr
    unfold shape_element at hr
    split at hr
    · exact absurd hr (by simp)
    next ts hts =>
      split at hr
      · exact absurd hr (by simp)
      next w hw' =>
        rw [if_neg hn, if_neg hw] at hr
        cases hr
        rfl
  · intro ts w hts hwn
    exact shape_ok_of_other_kind e ts w hn hw hts hwn

theorem other_kind_never_node_or_way_witness :
    shape_element relationPlain = Except.ok ShapeResult.unsupported :=
  (other_kind_never_node_or_way relationPlain (by decide) (by decide)).2 [] [] rfl rfl

/-! ### C4 -/

/-- Claim C4: a way that shapes successfully emits one `WayNodeRecord` per
`nd` descendant, with position fields exactly `0, 1, ..., N-1` in document
order and node_id fields equal to the respective `ref` values — duplicated
refs keep their own independent position entries. -/
theorem way_nodes_enumerated (e : XElem) (pr : List (String × String))
    (w : List WayNodeRecord) (ts : List TagRecord)
    (h : shape_element e = Except.ok (ShapeResult.way pr w ts)) :
    w.length = (iterName "nd" e).length ∧
    w.map (fun x => x.position) = List.range w.length ∧
    w.map (fun x => some x.node_id) = ndRefs e := by
  rcases shape_way_inv e pr w ts h with ⟨_, _, hw, _⟩
  rcases collectWayNodes_spec e (iterName "nd" e) 0 w hw with ⟨h1, h2, _⟩
  have hlen : w.length = (iterName "nd" e).length := by
    have := congrArg List.length h2
    simpa using this
  refine ⟨hlen, ?_, h2⟩
  have hr : List.range w.length = List.range' 0 (iterName "nd" e).length := by
    rw [List.range_eq_range', hlen]
  rw [hr]
  exact h1

theorem way_nodes_enumerated_witness :
    ringWayNodes.length = (iterName "nd" ringWay).length ∧
    ringWayNodes.map (fun x => x.position) = List.range ringWayNodes.length ∧
    ringWayNodes.map (fun x => some x.node_id) = ndRefs ringWay :=
  way_nodes_enumerated ringWay ringWayAttribs ringWayNodes ringWayTags rfl

/-! ### C8 -/

/-- Claim C8: a node element missing any of the eight required node
attributes, or a way element missing any of the six required way attributes,
fails shaping with a missing-key error, and no record at all is produced for
it. -/
theorem missing_required_attribute_fails (e : XElem) (f : String)
    (hf : (e.tag = "node" ∧ f ∈ NODE_FIELDS) ∨ (e.tag = "way" ∧ f ∈ WAY_FIELDS))
    (h : lookupAttr f e.attrib = none) :
    (shape_element e).isOk = false := by
  cases ht : collectTags e (iterName "tag" e) with
  | error err => exact shape_element_error_of_tags_error e ⟨err, ht⟩
  | ok ts =>
    cases hw : collectWayNodes e (iterName "nd" e) 0 with
    | error err => exact shape_element_error_of_wayNodes_error e ⟨err, hw⟩
    | ok w =>
      rcases hf with ⟨htag, hmem⟩ | ⟨htag, hmem⟩
      · rcases buildAttribs_error_of_missing e NODE_FIELDS f hmem h with ⟨err, herr⟩
        simp [shape_element, ht, hw, htag, herr, Except.isOk, Except.toBool]
      · rcases buildAttribs_error_of_missing e WAY_FIELDS f hmem h with ⟨err, herr⟩
        simp [shape_element, ht, hw, htag, herr, Except.isOk, Except.toBool]

theorem missing_required_attribute_fails_witness :
    (shape_element nodeNoUid).isOk = false :=
  missing_required_attribute_fails nodeNoUid "uid" (Or.inl ⟨rfl, by decide⟩) rfl

/-! ### C9 -/

/-- Claim C9: in every successful shaping, every emitted `TagRecord` and
every emitted `WayNodeRecord` carries an id equal to the owning element's
own `"id"` attribute value, copied unchanged as a string. -/
theorem records_carry_owner_id (e : XElem) (r : ShapeResult)
    (h : shape_element e = Except.ok r) :
    (∀ pr ts, r = ShapeResult.node pr ts →
      ∀ t ∈ ts, lookupAttr "id" e.attrib = some t.id) ∧
    (∀ pr w ts, r = ShapeResult.way pr w ts →
      (∀ t ∈ ts, lookupAttr "id" e.attrib = some t.id) ∧
      ∀ x ∈ w, lookupAttr "id" e.attrib = some x.id) := by
  constructor
  · intro pr ts hr
    subst hr
    rcases shape_node_inv e pr ts h with ⟨_, hts, _, _⟩
    exact collectTags_id_of_ok e _ ts hts
  · intro pr w ts hr
    subst hr
    rcases shape_way_inv e pr w ts h with ⟨_, hts, hw, _⟩
    exact ⟨collectTags_id_of_ok e _ ts hts, (collectWayNodes_spec e _ 0 w hw).2.2⟩

theorem records_carry_owner_id_witness :
    lookupAttr "id" ringWay.attrib = some ringTagRecord.id ∧
    lookupAttr "id" ringWay.attrib = some ringWayNode0.id := by
  have H := (records_carry_owner_id ringWay
      (ShapeResult.way ringWayAttribs ringWayNodes ringWayTags) rfl).2
      ringWayAttribs ringWayNodes ringWayTags rfl
  exact ⟨H.1 ringTagRecord (List.mem_singleton.mpr rfl),
    H.2 ringWayNode0 (List.mem_cons_self _ _)⟩

/-! ### C10 -/

/-- Claim C10: the `nd` scan runs for every element before its kind is
examined — any element (in particular a node) with an `nd` descendant
lacking `"ref"` fails shaping entirely — yet a node that shapes successfully
returns only the node bundle, which carries no way-node records. -/
theorem nd_scan_runs_before_kind_check :
    (∀ e, (∃ nd ∈ iterName "nd" e, lookupAttr "ref" nd.attrib = none) →
      (shape_element e).isOk = false) ∧
    (∀ e r, e.tag = "node" → shape_element e = Except.ok r →
      ∃ pr ts, r = ShapeResult.node pr ts) := by
  constructor
  · rintro e ⟨nd, hm, hr⟩
    exact shape_element_error_of_wayNodes_error e
      (collectWayNodes_error_of_mem e _ nd hm hr 0)
  · intro e r htag h
    unfold shape_element at h
    split at h
    · exact absurd h (by simp)
    next ts hts =>
      split at h
      · exact absurd h (by simp)
      next w hw =>
        rw [if_pos htag] at h
        split at h
        · exact absurd h (by simp)
        next pr hpr =>
          cases h
          exact ⟨pr, ts, rfl⟩

theorem nd_scan_runs_before_kind_check_witness :
    (shape_element badNdNode).isOk = false :=
  nd_scan_runs_before_kind_check.1 badNdNode ⟨badNd, List.mem_singleton.mpr rfl, rfl⟩

end Osm2Sql
